import Mathlib

/-!
Verification of the claude-squad session lifecycle manager (the `app`
package, plus `config/hotkeys.go`) against its specification.

The Go code is shallowly embedded: each `tea.Cmd` closure or `Update`
branch becomes a pure Lean function over an explicit environment that
records the results of the external calls (git worktree queries, storage
writes, tmux teardown, channel reads) the Go code makes, together with an
effect record of which mutating calls were actually issued.  Machine
integers do not overflow in any modelled path, so `Nat` is used directly.
-/

namespace ClaudeSquad

/-- Instance status values referenced from `app.go` (`session.Loading`,
`session.Running`, `session.Ready`, `session.Paused`, `session.Deleting`). -/
inductive Status
  | loading
  | running
  | ready
  | paused
  | deleting
  deriving DecidableEq, Repr

/-- Stages of the asynchronous start protocol.  `app.go` references
`session.StageComplete` and `session.StageFailed`; the non-terminal stage
names are taken from the ordered list in the spec (Initializing,
CreatingWorkspace, StartingSession, WaitingForAgentReady). -/
inductive Stage
  | initializing
  | creatingWorkspace
  | startingSession
  | waitingForAgentReady
  | complete
  | failed
  deriving DecidableEq, Repr

/-- Progress message for the async start protocol.  `app.go` reads the
fields `Stage`, `Message` and `Error` of `session.InitProgress`. -/
structure InitProgress where
  stage : Stage
  message : String
  errMsg : Option String
  deriving DecidableEq, Repr

/-- The two kinds of message `listenForProgressCmd` can deliver back to the
control loop: `instanceStartCompleteMsg` (with its optional error) or
`instanceProgressMsg` (which causes the `Update` loop to re-arm the read). -/
inductive ListenMsg
  | startComplete (err : Option String)
  | progressMsg (p : InitProgress)
  deriving DecidableEq, Repr

/-- One read step of `listenForProgressCmd` (app.go:926-961).  The argument
is the result of `<-ch`: `none` models a closed channel (`ok == false`),
`some p` a received message.  Mirrors the Go branch structure: closed
channel and `StageComplete` both yield a completion message without error,
`StageFailed` yields a completion message carrying `p.Error`, and any other
stage yields `instanceProgressMsg`. -/
def listenForProgressCmd : Option InitProgress → ListenMsg
  | none => ListenMsg.startComplete none
  | some p =>
    if p.stage = Stage.complete then ListenMsg.startComplete none
    else if p.stage = Stage.failed then ListenMsg.startComplete p.errMsg
    else ListenMsg.progressMsg p

/-- The consumer loop: `home.Update` (app.go:289-292) handles an
`instanceProgressMsg` by re-arming `listenForProgressCmd` on the same
channel, so the stream is drained one message at a time until a terminal
message is produced.  The stream is modelled as the finite list of messages
the producer sends before closing the channel. -/
def drainProgress : List InitProgress → ListenMsg
  | [] => listenForProgressCmd none
  | p :: rest =>
    match listenForProgressCmd (some p) with
    | ListenMsg.progressMsg _ => drainProgress rest
    | m => m

/-- Whether a `ListenMsg` is terminal for the consumer (the consumer stops
re-arming exactly on `instanceStartCompleteMsg`). -/
def ListenMsg.isTerminal : ListenMsg → Bool
  | ListenMsg.startComplete _ => true
  | ListenMsg.progressMsg _ => false

/-- Buffer capacity of the progress channel created by `startInstanceCmd`
(app.go:910, `make(chan session.InitProgress, 1)`). -/
def progressChannelCapacity : Nat := 1

/-- The receiving half of `startInstanceCmd` (app.go:908-923): after
spawning the producer it performs exactly one channel receive and returns
an `instanceProgressMsg` carrying that first message together with the
channel, leaving the rest of the stream for `listenForProgressCmd`.
`none` models a producer that closed the channel without sending. -/
def startInstanceCmd : List InitProgress → Option (InitProgress × List InitProgress)
  | [] => none
  | p :: rest => some (p, rest)

/-- Environment of one run of `deleteInstanceCmd` (app.go:851-883): the
results the external calls would return, in program order.
`getWorktree` is `instance.GetGitWorktree()`, `isBranchCheckedOut` is
`worktree.IsBranchCheckedOut()`, `deleteFromStorage` is
`storage.DeleteInstance(instance.Title)`, `kill` is `instance.Kill()`. -/
structure DeleteWorld where
  getWorktree : Except String Unit
  isBranchCheckedOut : Except String Bool
  deleteFromStorage : Except String Unit
  kill : Except String Unit
  deriving Repr

/-- Which mutating calls a run of `deleteInstanceCmd` actually issued.
`storageDeleteIssued` records that `storage.DeleteInstance` was called
(the persisted metadata write), `killIssued` that `instance.Kill` was
called (tmux session and git worktree teardown). -/
structure DeleteEffects where
  storageDeleteIssued : Bool
  killIssued : Bool
  deriving DecidableEq, Repr

/-- The guard error message built at app.go:867
(`fmt.Errorf("instance %s is currently checked out", instance.Title)`). -/
def checkedOutErr (title : String) : String :=
  "instance " ++ title ++ " is currently checked out"

/-- Shallow embedding of `deleteInstanceCmd` (app.go:851-883).  Returns the
effect record together with the `err` field of the `instanceDeletedMsg` it
sends.  The branch order mirrors the Go code: worktree lookup, checked-out
guard, storage delete, kill; each later call is reached only if every
earlier one succeeded. -/
def deleteInstanceCmd (title : String) (w : DeleteWorld) :
    DeleteEffects × Option String :=
  match w.getWorktree with
  | Except.error e => (⟨false, false⟩, some e)
  | Except.ok _ =>
    match w.isBranchCheckedOut with
    | Except.error e => (⟨false, false⟩, some e)
    | Except.ok true => (⟨false, false⟩, some (checkedOutErr title))
    | Except.ok false =>
      match w.deleteFromStorage with
      | Except.error e => (⟨true, false⟩, some e)
      | Except.ok _ =>
        match w.kill with
        | Except.error e => (⟨true, true⟩, some e)
        | Except.ok _ => (⟨true, true⟩, none)

/-- Result of a full delete interaction: confirmation, async command, and
the `instanceDeletedMsg` branch of `home.Update` (app.go:277-288). -/
structure DeleteFlowResult where
  effects : DeleteEffects
  /-- the instance status after the flow (`SetStatus` calls included) -/
  finalStatus : Status
  /-- whether `m.list.RemoveInstance(msg.instance)` was executed -/
  removedFromList : Bool
  /-- the error passed to `m.handleError`, if any -/
  surfacedErr : Option String
  deriving DecidableEq, Repr

/-- Full delete flow for one instance.  The kill-confirmation branch of
`handleKeyPress` (app.go:548-556) sets the status to `Deleting` and starts
`deleteInstanceCmd`; the `instanceDeletedMsg` branch of `home.Update`
(app.go:277-288) then either reverts the status to `Ready` and surfaces the
error (when `msg.err != nil`) or removes the instance from the list.
`priorStatus` is the instance status before the user confirmed the kill. -/
def deleteFlow (priorStatus : Status) (title : String) (w : DeleteWorld) :
    DeleteFlowResult :=
  let statusAfterConfirm := Status.deleting
  let r := deleteInstanceCmd title w
  match r.2 with
  | some e => ⟨r.1, Status.ready, false, some e⟩
  | none => ⟨r.1, statusAfterConfirm, true, none⟩

/-- One instance as seen by the `tickUpdateMetadataMessage` branch of
`home.Update` (app.go:228-247), together with the results the instance
methods called there would return this tick: `Started()`, `Paused()`, the
pair returned by `HasUpdated()` and the error of `UpdateDiffStats()`.
Those methods live in the `session` package; the sweep only branches on
their results, so they are modelled as per-instance oracle fields. -/
structure TickInstance where
  started : Bool
  isPaused : Bool
  status : Status
  updated : Bool
  prompt : Bool
  diffErr : Option String
  deriving DecidableEq, Repr

/-- Outcome of the sweep body for one instance. -/
structure TickStepResult where
  /-- the instance after any `SetStatus` call -/
  inst : TickInstance
  /-- whether `instance.TapEnter()` was called -/
  tappedEnter : Bool
  /-- the warning logged for a failed `UpdateDiffStats`, if any -/
  warning : Option String
  deriving DecidableEq, Repr

/-- Body of the per-instance loop in the `tickUpdateMetadataMessage` branch
(app.go:229-246): instances that are not started or are paused are skipped
(`continue`); otherwise `HasUpdated` classifies the instance — updated
output sets `Running`; otherwise a detected prompt triggers `TapEnter`
(leaving the status alone) and no prompt sets `Ready` — and then
`UpdateDiffStats` runs, its error only logged. -/
def tickStep (i : TickInstance) : TickStepResult :=
  if !i.started || i.isPaused then ⟨i, false, none⟩
  else
    let i2 :=
      if i.updated then { i with status := Status.running }
      else if i.prompt then i
      else { i with status := Status.ready }
    let tapped := !i.updated && i.prompt
    ⟨i2, tapped, i.diffErr⟩

/-- The whole sweep: the `for _, instance := range m.list.GetInstances()`
loop, which has no `break` or early `return` — every instance is processed
and every diff-stats failure is only logged. -/
def tickSweep : List TickInstance → List TickStepResult
  | [] => []
  | i :: rest => tickStep i :: tickSweep rest

/-- The warnings the sweep logs, in order. -/
def tickSweepWarnings (l : List TickInstance) : List String :=
  (tickSweep l).filterMap (fun r => r.warning)

/-- Modelled from the spec: `session.Instance.SetTitle` is not under
`src/`; the spec states the title is "unique, ≤32 chars, mutable only
pre-start" and that a bad title is rejected by a ValidationError before
touching resources.  The model therefore rejects any mutation on a started
instance and any new title longer than 32 characters, leaving the stored
title unchanged.  (Uniqueness needs the whole instance list and is not
modelled here.)  Titles are modelled as character lists; the Go `len` builtin counts
bytes, which coincides for the ASCII titles at issue. -/
def setTitle (started : Bool) (newTitle : List Char) : Except String (List Char) :=
  if started then Except.error "cannot change the title of a started instance"
  else if 32 < newTitle.length then Except.error "title cannot be longer than 32 characters"
  else Except.ok newTitle

/-- The key events the `stateNew` branch of `home.handleKeyPress`
(app.go:418-496) distinguishes: ctrl+c, enter, typed runes, backspace,
space, escape, and everything else. -/
inductive NewKey
  | ctrlC
  | enterKey
  | runes (s : List Char)
  | backspace
  | space
  | escKey
  | other
  deriving DecidableEq, Repr

/-- Observable outcome of one `stateNew` keypress: the instance start
command was issued with the final title; the key was rejected via
`handleError` with the title left as given; the title changed; the pending
instance was killed and the state reset (ctrl+c / esc); or nothing
happened. -/
inductive NewKeyOutcome
  | startCmd (title : List Char)
  | rejected (e : String) (title : List Char)
  | titleNow (title : List Char)
  | cancelled
  | unchanged (title : List Char)
  deriving DecidableEq, Repr

/-- Shallow embedding of the `stateNew` branch of `home.handleKeyPress`
(app.go:418-496) acting on the title of the pre-start instance.  Mirrors the Go
branch structure: enter rejects an empty title, otherwise issues
`startInstanceCmd`; typed runes are rejected up front when the title
already has 32 or more characters and otherwise go through `SetTitle` on
the extended title; backspace on an empty title is a no-op and otherwise
goes through `SetTitle` on the shortened title; space goes through
`SetTitle` with a blank appended (the Go code has no length check on this
branch, so the bound rests on `SetTitle` alone); esc and ctrl+c cancel. -/
def handleNewStateKey (title : List Char) (k : NewKey) : NewKeyOutcome :=
  match k with
  | NewKey.ctrlC => NewKeyOutcome.cancelled
  | NewKey.enterKey =>
    if title.length = 0 then NewKeyOutcome.rejected "title cannot be empty" title
    else NewKeyOutcome.startCmd title
  | NewKey.runes s =>
    if 32 ≤ title.length then
      NewKeyOutcome.rejected "title cannot be longer than 32 characters" title
    else
      match setTitle false (title ++ s) with
      | Except.error e => NewKeyOutcome.rejected e title
      | Except.ok t => NewKeyOutcome.titleNow t
  | NewKey.backspace =>
    if title.length = 0 then NewKeyOutcome.unchanged title
    else
      match setTitle false title.dropLast with
      | Except.error e => NewKeyOutcome.rejected e title
      | Except.ok t => NewKeyOutcome.titleNow t
  | NewKey.space =>
    match setTitle false (title ++ [' ']) with
    | Except.error e => NewKeyOutcome.rejected e title
    | Except.ok t => NewKeyOutcome.titleNow t
  | NewKey.escKey => NewKeyOutcome.cancelled
  | NewKey.other => NewKeyOutcome.unchanged title

/-- The global instance cap (app.go:21, `const GlobalInstanceLimit = 10`). -/
def GlobalInstanceLimit : Nat := 10

/-- The two keys that create a new instance: `keys.KeyNew` ("n") and
`keys.KeyPrompt` ("N"), whose handlers (app.go:619-659) differ only in
setting `promptAfterName`. -/
inductive CreateKey
  | keyNew
  | keyPrompt
  deriving DecidableEq, Repr

/-- Outcome of a create keypress: rejected over the limit (list size
unchanged), failed in `session.NewInstance` (list size unchanged), or a
new unstarted instance appended and `stateNew` entered. -/
inductive CreateOutcome
  | rejected (e : String) (numInstances : Nat)
  | creationFailed (e : String) (numInstances : Nat)
  | entered (numInstances : Nat) (promptAfterName : Bool)
  deriving DecidableEq, Repr

/-- Shallow embedding of the `keys.KeyNew` / `keys.KeyPrompt` branches of
`home.handleKeyPress` (app.go:619-659).  `numInstances` is
`m.list.NumInstances()`; `newInstanceResult` is the result of
`session.NewInstance`.  Both branches first reject when the list already
holds `GlobalInstanceLimit` instances. -/
def handleCreateKey (k : CreateKey) (numInstances : Nat)
    (newInstanceResult : Except String Unit) : CreateOutcome :=
  if GlobalInstanceLimit ≤ numInstances then
    CreateOutcome.rejected
      ("you can\x27t create more than " ++ toString GlobalInstanceLimit ++ " instances")
      numInstances
  else
    match newInstanceResult with
    | Except.error e => CreateOutcome.creationFailed e numInstances
    | Except.ok _ =>
      CreateOutcome.entered (numInstances + 1)
        (match k with | CreateKey.keyPrompt => true | CreateKey.keyNew => false)

/-- The timeout, in seconds, passed to `instance.WaitForInputReady` by
`sendPendingPromptCmd` (app.go:839, `5 * time.Second`). -/
def pendingPromptWaitSeconds : Nat := 5

/-- The message `sendPendingPromptCmd` returns to the control loop. -/
structure PendingPromptSentMsg where
  err : Option String
  deriving DecidableEq, Repr

/-- Shallow embedding of `sendPendingPromptCmd` (app.go:836-848).
`waitResult` is what `instance.WaitForInputReady(5 * time.Second)`
returned — the Go code discards it (`_ =`), so it does not appear on the
right-hand side; `sendResult` is the error of `instance.SendPrompt`,
which is always attempted and whose result becomes the `err` field of the message. -/
def sendPendingPromptCmd (waitResult : Except String Unit)
    (sendResult : Option String) : PendingPromptSentMsg :=
  { err := sendResult }

/-- Result of the `os.ReadFile` call in `config.LoadHotkeys`
(hotkeys.go:20): the file may be absent (`os.IsNotExist`), unreadable for
another reason, or read successfully. -/
inductive ReadFileResult
  | notExist
  | otherErr (e : String)
  | okData (data : String)

/-- A Go `Hotkeys` map value (`map[string]string`): `none` models the nil
map, `some entries` a non-nil map with the given entries. -/
abbrev HotkeysVal : Type := Option (List (String × String))

/-- Shallow embedding of `config.LoadHotkeys` (hotkeys.go:17-35),
parameterized over the result of the file read and over the behaviour of
`json.Unmarshal` on the bytes of the file.  Any read failure and any parse
error yield `make(Hotkeys)` — an empty, non-nil map (`some []`); on a
successful parse the function returns whatever `json.Unmarshal` left in
the `var hotkeys Hotkeys` it was given. -/
def loadHotkeys (read : ReadFileResult)
    (unmarshal : String → Except String HotkeysVal) : HotkeysVal :=
  match read with
  | ReadFileResult.notExist => some []
  | ReadFileResult.otherErr _ => some []
  | ReadFileResult.okData data =>
    match unmarshal data with
    | Except.error _ => some []
    | Except.ok m => m

/-- Modelled from Go `encoding/json` documented semantics, restricted to
the one input the counterexample needs: unmarshalling the JSON document
`null` into a `map[string]string` passed by pointer is not an error and
leaves the map at its zero value `nil` ("To unmarshal JSON into a pointer,
Unmarshal first handles the case of the JSON being the JSON literal null.
In that case, Unmarshal sets the pointer to nil.").  Every other input is
left unmodelled as a parse error, which only strengthens the fallback
path. -/
def goUnmarshalNullDoc : String → Except String HotkeysVal :=
  fun s => if s = "null" then Except.ok none else Except.error "unmodelled input"

end ClaudeSquad

namespace ClaudeSquad

/-- C3: For every run of the start progress protocol, the consumer drains
one message at a time and re-arms the read after each non-terminal message;
consumption ends in exactly one terminal outcome (Complete, Failed, or
stream end, with stream end treated as Complete) and never stops on a
non-terminal stage. -/
theorem drainProgress_terminal (stream : List InitProgress) :
    (drainProgress stream).isTerminal = true ∧
    drainProgress [] = ListenMsg.startComplete none ∧
    (∀ p rest, p.stage ≠ Stage.complete → p.stage ≠ Stage.failed →
      drainProgress (p :: rest) = drainProgress rest) ∧
    (∀ p rest, p.stage = Stage.complete →
      drainProgress (p :: rest) = ListenMsg.startComplete none) ∧
    (∀ p rest, p.stage = Stage.failed →
      drainProgress (p :: rest) = ListenMsg.startComplete p.errMsg) := by
  refine ⟨?_, rfl, ?_, ?_, ?_⟩
  · induction stream with
    | nil => rfl
    | cons p rest ih =>
      simp only [drainProgress, listenForProgressCmd]
      by_cases hc : p.stage = Stage.complete
      · simp [hc, ListenMsg.isTerminal]
      · by_cases hf : p.stage = Stage.failed
        · simp [hc, hf, ListenMsg.isTerminal]
        · simpa [hc, hf] using ih
  · intro p rest hc hf
    simp [drainProgress, listenForProgressCmd, hc, hf]
  · intro p rest hc
    simp [drainProgress, listenForProgressCmd, hc]
  · intro p rest hf
    by_cases hc : p.stage = Stage.complete
    · rw [hc] at hf; cases hf
    · simp [drainProgress, listenForProgressCmd, hc, hf]

/-- Witness for `drainProgress_terminal`: instantiated on the concrete
stream Initializing, CreatingWorkspace, Complete. -/
theorem drainProgress_terminal_witness :
    drainProgress
      [⟨Stage.initializing, "Starting...", none⟩,
       ⟨Stage.creatingWorkspace, "Creating workspace...", none⟩]
      = drainProgress [⟨Stage.creatingWorkspace, "Creating workspace...", none⟩] ∧
    (drainProgress [⟨Stage.complete, "done", none⟩]).isTerminal = true := by
  constructor
  · exact (drainProgress_terminal []).2.2.1
      ⟨Stage.initializing, "Starting...", none⟩
      [⟨Stage.creatingWorkspace, "Creating workspace...", none⟩]
      (by decide) (by decide)
  · exact (drainProgress_terminal [⟨Stage.complete, "done", none⟩]).1

/-- C8: the progress channel is created with buffer capacity exactly one,
and the start command consumes exactly the first progress message before
returning to the control loop, leaving the rest of the stream on the
channel (it does not block on the whole creation). -/
theorem startInstanceCmd_first_message (p : InitProgress) (rest : List InitProgress) :
    progressChannelCapacity = 1 ∧
    startInstanceCmd (p :: rest) = some (p, rest) ∧
    startInstanceCmd [] = none := ⟨rfl, rfl, rfl⟩

/-- C1 counterexample: the claim says that on guard failure the instance
status is reverted to its prior value, but `home.Update` (app.go:282) sets
it to `Ready` unconditionally.  Concretely, deleting an instance whose
prior status is `Running` while its branch is checked out elsewhere leaves
the instance with status `Ready`, not `Running`. -/
theorem deleteFlow_guard_not_prior :
    (deleteFlow Status.running "fix-bug"
        ⟨Except.ok (), Except.ok true, Except.ok (), Except.ok ()⟩).finalStatus
      = Status.ready ∧
    Status.ready ≠ Status.running := by decide

/-- C1 (amended): on guard failure the delete surfaces the guard error,
issues no storage delete and no teardown, leaves the instance in the list,
and sets the instance status to `Ready` (not necessarily its prior value);
moreover no mutating call is ever issued unless the checked-out guard
passes. -/
theorem deleteFlow_guard (prior : Status) (title : String) (w : DeleteWorld)
    (hwt : w.getWorktree = Except.ok ())
    (hco : w.isBranchCheckedOut = Except.ok true) :
    deleteFlow prior title w =
      ⟨⟨false, false⟩, Status.ready, false, some (checkedOutErr title)⟩ ∧
    (∀ w2 : DeleteWorld, w2.isBranchCheckedOut ≠ Except.ok false →
      (deleteInstanceCmd title w2).1 = ⟨false, false⟩) := by
  obtain ⟨gw, co, ds, k⟩ := w
  simp only at hwt hco
  subst hwt; subst hco
  refine ⟨rfl, ?_⟩
  intro w2 h
  obtain ⟨gw2, co2, ds2, k2⟩ := w2
  simp only at h
  cases gw2 with
  | error e => rfl
  | ok u =>
    cases co2 with
    | error e => rfl
    | ok b =>
      cases b with
      | true => rfl
      | false => exact absurd rfl h

/-- Witness for `deleteFlow_guard` at a concrete guard-failing world. -/
theorem deleteFlow_guard_witness :
    deleteFlow Status.paused "t"
        ⟨Except.ok (), Except.ok true, Except.ok (), Except.ok ()⟩ =
      ⟨⟨false, false⟩, Status.ready, false, some (checkedOutErr "t")⟩ :=
  (deleteFlow_guard Status.paused "t"
    ⟨Except.ok (), Except.ok true, Except.ok (), Except.ok ()⟩ rfl rfl).1

/-- C2 counterexample: the claim says completion of a guard-passing delete
is defined by the metadata removal alone, and that a teardown failure never
keeps the instance listed as live.  In the code a teardown failure makes
`deleteInstanceCmd` return a non-nil `err`, so `home.Update` takes the
failure branch: the instance is not removed from the list and its status is
set to `Ready`, even though the persisted entry was already deleted. -/
theorem deleteFlow_teardown_keeps_listed :
    deleteFlow Status.ready "fix-bug"
        ⟨Except.ok (), Except.ok false, Except.ok (), Except.error "tmux kill failed"⟩
      = ⟨⟨true, true⟩, Status.ready, false, some "tmux kill failed"⟩ := by decide

/-- C2 (amended): for every delete that passes the guard, the persisted
metadata is removed first and only then is teardown attempted; the
`Update` handler issues no further store call, so a teardown failure never
restores the deleted entry — but the delete is then treated as failed: the
error is surfaced, the instance stays in the in-memory list, and its
status is set to `Ready`.  Removal from the list happens only when the
teardown also succeeds. -/
theorem deleteFlow_teardown (prior : Status) (title : String) (w : DeleteWorld)
    (hwt : w.getWorktree = Except.ok ())
    (hco : w.isBranchCheckedOut = Except.ok false) :
    (deleteFlow prior title w).effects = (deleteInstanceCmd title w).1 ∧
    ((deleteInstanceCmd title w).1.killIssued = true →
      (deleteInstanceCmd title w).1.storageDeleteIssued = true) ∧
    (∀ e, w.deleteFromStorage = Except.error e →
      (deleteInstanceCmd title w).1 = ⟨true, false⟩ ∧
      (deleteFlow prior title w).removedFromList = false) ∧
    (∀ e, w.deleteFromStorage = Except.ok () → w.kill = Except.error e →
      deleteFlow prior title w = ⟨⟨true, true⟩, Status.ready, false, some e⟩) ∧
    (w.deleteFromStorage = Except.ok () → w.kill = Except.ok () →
      deleteFlow prior title w = ⟨⟨true, true⟩, Status.deleting, true, none⟩) := by
  obtain ⟨gw, co, ds, k⟩ := w
  simp only at hwt hco
  subst hwt; subst hco
  cases ds with
  | error e =>
    refine ⟨rfl, ?_, ?_, ?_, ?_⟩
    · intro h; cases h
    · intro e2 h; exact ⟨rfl, rfl⟩
    · intro e2 h; cases h
    · intro h; cases h
  | ok u =>
    cases u
    cases k with
    | error e =>
      refine ⟨rfl, fun _ => rfl, ?_, ?_, ?_⟩
      · intro e2 h; cases h
      · intro e2 h hk
        injection hk with he
        subst he
        rfl
      · intro _ hk; cases hk
    | ok u2 =>
      cases u2
      refine ⟨rfl, fun _ => rfl, ?_, ?_, fun _ _ => rfl⟩
      · intro e2 h; cases h
      · intro e2 _ hk; cases hk

/-- Helper: the sweep is exactly a map of the loop body over the instance
list (no early exit). -/
theorem tickSweep_eq_map (l : List TickInstance) : tickSweep l = l.map tickStep := by
  induction l with
  | nil => rfl
  | cons i rest ih => simp [tickSweep, ih]

/-- C4: on every metadata tick, each started non-paused instance is
classified from its captured output — updated output sets status
`Running`; no update and no prompt sets status `Ready`; no update with a
detected prompt synthesizes an accept keystroke (`TapEnter`) and leaves
the status unchanged — while instances that are not started or are paused
are skipped unchanged. -/
theorem tickStep_classification (i : TickInstance) :
    (i.started = false ∨ i.isPaused = true → tickStep i = ⟨i, false, none⟩) ∧
    (i.started = true → i.isPaused = false →
      (i.updated = true →
        tickStep i = ⟨{ i with status := Status.running }, false, i.diffErr⟩) ∧
      (i.updated = false → i.prompt = false →
        tickStep i = ⟨{ i with status := Status.ready }, false, i.diffErr⟩) ∧
      (i.updated = false → i.prompt = true →
        tickStep i = ⟨i, true, i.diffErr⟩)) := by
  obtain ⟨s, p, st, u, pr, de⟩ := i
  cases s <;> cases p <;> cases u <;> cases pr <;> simp [tickStep]

/-- Witness for `tickStep_classification`: one concrete instance per
branch (running, ready, prompt-tap, skipped). -/
theorem tickStep_classification_witness :
    tickStep ⟨true, false, Status.ready, true, false, none⟩ =
      ⟨⟨true, false, Status.running, true, false, none⟩, false, none⟩ ∧
    tickStep ⟨true, false, Status.running, false, false, none⟩ =
      ⟨⟨true, false, Status.ready, false, false, none⟩, false, none⟩ ∧
    tickStep ⟨true, false, Status.running, false, true, some "diff failed"⟩ =
      ⟨⟨true, false, Status.running, false, true, some "diff failed"⟩, true,
        some "diff failed"⟩ ∧
    tickStep ⟨true, true, Status.paused, true, false, none⟩ =
      ⟨⟨true, true, Status.paused, true, false, none⟩, false, none⟩ := by
  refine ⟨?_, ?_, ?_, ?_⟩
  · exact ((tickStep_classification
      ⟨true, false, Status.ready, true, false, none⟩).2 rfl rfl).1 rfl
  · exact (((tickStep_classification
      ⟨true, false, Status.running, false, false, none⟩).2 rfl rfl).2.1) rfl rfl
  · exact (((tickStep_classification
      ⟨true, false, Status.running, false, true, some "diff failed"⟩).2
        rfl rfl).2.2) rfl rfl
  · exact (tickStep_classification
      ⟨true, true, Status.paused, true, false, none⟩).1 (Or.inr rfl)

/-- C6: the periodic sweep processes every instance: the result for each
position is computed from that instance alone, independent of any
diff-stats error raised for any other instance, and every per-instance
warning is collected rather than aborting the sweep. -/
theorem tickSweep_no_abort (l : List TickInstance) :
    (tickSweep l).length = l.length ∧
    (∀ n : Nat, (tickSweep l)[n]? = (l[n]?).map tickStep) ∧
    tickSweepWarnings l = l.filterMap (fun i => (tickStep i).warning) := by
  refine ⟨?_, ?_, ?_⟩
  · rw [tickSweep_eq_map]; simp
  · intro n
    rw [tickSweep_eq_map]
    simp
  · rw [tickSweepWarnings, tickSweep_eq_map, List.filterMap_map]
    rfl

/-- C5: title validation happens before any resource is touched — entering
an empty title is rejected and starts nothing; a start command is issued
only with a non-empty title of at most 32 characters; every accepted title
mutation keeps the title at or below 32 characters; and a rune or space
keypress that would push the title past 32 characters is rejected with an
error while the title stays unchanged. -/
theorem newTitle_validation (title : List Char) (h : title.length ≤ 32) :
    (title.length = 0 →
      handleNewStateKey title NewKey.enterKey
        = NewKeyOutcome.rejected "title cannot be empty" title) ∧
    (∀ k t, handleNewStateKey title k = NewKeyOutcome.startCmd t →
      t = title ∧ 1 ≤ t.length ∧ t.length ≤ 32) ∧
    (∀ k t, handleNewStateKey title k = NewKeyOutcome.titleNow t →
      t.length ≤ 32) ∧
    (∀ s, 32 < title.length + s.length →
      handleNewStateKey title (NewKey.runes s)
        = NewKeyOutcome.rejected "title cannot be longer than 32 characters" title) ∧
    (32 < title.length + 1 →
      handleNewStateKey title NewKey.space
        = NewKeyOutcome.rejected "title cannot be longer than 32 characters" title) := by
  refine ⟨?_, ?_, ?_, ?_, ?_⟩
  · intro h0
    simp [handleNewStateKey, h0]
  · intro k t hk
    cases k with
    | enterKey =>
      by_cases h0 : title.length = 0
      · simp [handleNewStateKey, h0] at hk
      · simp [handleNewStateKey, h0] at hk
        subst hk
        exact ⟨rfl, by omega, h⟩
    | ctrlC => simp [handleNewStateKey] at hk
    | runes s =>
      by_cases h32 : 32 ≤ title.length
      · simp [handleNewStateKey, h32] at hk
      · by_cases hlong : 32 < title.length + s.length
        · simp [handleNewStateKey, h32, setTitle, hlong] at hk
        · simp [handleNewStateKey, h32, setTitle, hlong] at hk
    | backspace =>
      by_cases h0 : title.length = 0
      · simp [handleNewStateKey, h0] at hk
      · by_cases hlong : 32 < title.length - 1
        · simp [handleNewStateKey, h0, setTitle, hlong] at hk
        · simp [handleNewStateKey, h0, setTitle, hlong] at hk
    | space =>
      by_cases hlong : 32 < title.length + 1
      · simp [handleNewStateKey, setTitle, hlong] at hk
      · simp [handleNewStateKey, setTitle, hlong] at hk
    | escKey => simp [handleNewStateKey] at hk
    | other => simp [handleNewStateKey] at hk
  · intro k t hk
    cases k with
    | enterKey =>
      by_cases h0 : title.length = 0 <;> simp [handleNewStateKey, h0] at hk
    | ctrlC => simp [handleNewStateKey] at hk
    | runes s =>
      by_cases h32 : 32 ≤ title.length
      · simp [handleNewStateKey, h32] at hk
      · by_cases hlong : 32 < title.length + s.length
        · simp [handleNewStateKey, h32, setTitle, hlong] at hk
        · simp [handleNewStateKey, h32, setTitle, hlong] at hk
          subst hk
          simp only [List.length_append]
          omega
    | backspace =>
      by_cases h0 : title.length = 0
      · simp [handleNewStateKey, h0] at hk
      · by_cases hlong : 32 < title.length - 1
        · simp [handleNewStateKey, h0, setTitle, hlong] at hk
        · simp [handleNewStateKey, h0, setTitle, hlong] at hk
          subst hk
          simp only [List.length_dropLast]
          omega
    | space =>
      by_cases hlong : 32 < title.length + 1
      · simp [handleNewStateKey, setTitle, hlong] at hk
      · simp [handleNewStateKey, setTitle, hlong] at hk
        subst hk
        simp only [List.length_append, List.length_cons, List.length_nil]
        omega
    | escKey => simp [handleNewStateKey] at hk
    | other => simp [handleNewStateKey] at hk
  · intro s hs
    by_cases h32 : 32 ≤ title.length
    · simp [handleNewStateKey, h32]
    · simp [handleNewStateKey, h32, setTitle, hs]
  · intro hs
    simp [handleNewStateKey, setTitle, hs]

/-- Witness for `newTitle_validation`: the empty title is rejected on
enter, and a space keypress on a full 32-character title is rejected with
the title unchanged. -/
theorem newTitle_validation_witness :
    handleNewStateKey [] NewKey.enterKey
      = NewKeyOutcome.rejected "title cannot be empty" [] ∧
    handleNewStateKey (List.replicate 32 'a') NewKey.space
      = NewKeyOutcome.rejected "title cannot be longer than 32 characters"
          (List.replicate 32 'a') := by
  constructor
  · exact (newTitle_validation [] (by simp)).1 rfl
  · exact (newTitle_validation (List.replicate 32 'a') (by simp)).2.2.2.2 (by simp)

/-- C7: the caller of `sendPendingPromptCmd` waits for input readiness
with a bounded five-second timeout, and the readiness result is discarded:
the prompt send is attempted regardless of the wait outcome, and the
resulting message carries exactly the send result. -/
theorem sendPendingPrompt_wait_advisory (w1 w2 : Except String Unit)
    (s : Option String) :
    sendPendingPromptCmd w1 s = sendPendingPromptCmd w2 s ∧
    (sendPendingPromptCmd w1 s).err = s ∧
    pendingPromptWaitSeconds = 5 := ⟨rfl, rfl, rfl⟩

/-- C9: with `GlobalInstanceLimit = 10`, any attempt to create a new
instance via either create key while the list already holds ten or more
entries is rejected with an error and leaves the instance count
unchanged. -/
theorem createKey_limit (k : CreateKey) (n : Nat) (r : Except String Unit)
    (h : GlobalInstanceLimit ≤ n) :
    handleCreateKey k n r =
      CreateOutcome.rejected "you can\x27t create more than 10 instances" n ∧
    GlobalInstanceLimit = 10 := by
  refine ⟨?_, rfl⟩
  simp only [handleCreateKey, if_pos h]
  rfl

/-- Witness for `createKey_limit` at exactly ten instances. -/
theorem createKey_limit_witness :
    handleCreateKey CreateKey.keyNew 10 (Except.ok ()) =
      CreateOutcome.rejected "you can\x27t create more than 10 instances" 10 :=
  (createKey_limit CreateKey.keyNew 10 (Except.ok ()) (by decide)).1

/-- C10 counterexample: the claim says `LoadHotkeys` never returns nil,
but the hotkeys file containing the JSON document `null` parses without
error and leaves the map at its zero value, so `LoadHotkeys` returns the
nil map. -/
theorem loadHotkeys_nil_on_null :
    loadHotkeys (ReadFileResult.okData "null") goUnmarshalNullDoc
      = (none : HotkeysVal) := by
  simp [loadHotkeys, goUnmarshalNullDoc]

/-- C10 (amended): `LoadHotkeys` is total and never returns a Go error; it
returns the empty non-nil map when the file is absent, unreadable, or
fails to parse; when the file parses successfully it returns the parsed
value as-is — so the only way it returns the nil map is a successful parse
that produced nil (as the JSON document `null` does). -/
theorem loadHotkeys_fallback (e data : String)
    (u : String → Except String HotkeysVal) :
    loadHotkeys ReadFileResult.notExist u = some [] ∧
    loadHotkeys (ReadFileResult.otherErr e) u = some [] ∧
    (∀ e2, u data = Except.error e2 →
      loadHotkeys (ReadFileResult.okData data) u = some []) ∧
    (∀ m, u data = Except.ok m →
      loadHotkeys (ReadFileResult.okData data) u = m) ∧
    (∀ read, loadHotkeys read u = none →
      ∃ d, read = ReadFileResult.okData d ∧ u d = Except.ok none) := by
  refine ⟨rfl, rfl, ?_, ?_, ?_⟩
  · intro e2 hu
    simp [loadHotkeys, hu]
  · intro m hu
    simp [loadHotkeys, hu]
  · intro read hnil
    cases read with
    | notExist => simp [loadHotkeys] at hnil
    | otherErr e3 => simp [loadHotkeys] at hnil
    | okData d =>
      refine ⟨d, rfl, ?_⟩
      cases hud : u d with
      | error e3 => simp [loadHotkeys, hud] at hnil
      | ok m =>
        have hm : m = none := by simpa [loadHotkeys, hud] using hnil
        rw [hm]

/-- Witness for `loadHotkeys_fallback`: a parse error falls back to the
empty map, and the nil-map characterization applied to the `null`
document. -/
theorem loadHotkeys_fallback_witness :
    loadHotkeys (ReadFileResult.okData "bad json") goUnmarshalNullDoc = some [] ∧
    ∃ d, ReadFileResult.okData "null" = ReadFileResult.okData d ∧
      goUnmarshalNullDoc d = Except.ok none := by
  constructor
  · exact (loadHotkeys_fallback "e" "bad json" goUnmarshalNullDoc).2.2.1
      "unmodelled input" (by simp [goUnmarshalNullDoc])
  · exact (loadHotkeys_fallback "e" "null" goUnmarshalNullDoc).2.2.2.2
      (ReadFileResult.okData "null") (by simp [loadHotkeys, goUnmarshalNullDoc])

/-- Witness for `deleteFlow_teardown` at a concrete world whose storage
delete succeeds and whose teardown fails. -/
theorem deleteFlow_teardown_witness :
    deleteFlow Status.running "t"
        ⟨Except.ok (), Except.ok false, Except.ok (), Except.error "boom"⟩ =
      ⟨⟨true, true⟩, Status.ready, false, some "boom"⟩ :=
  ((deleteFlow_teardown Status.running "t"
      ⟨Except.ok (), Except.ok false, Except.ok (), Except.error "boom"⟩
      rfl rfl).2.2.2.1) "boom" rfl rfl

end ClaudeSquad
